import Mathlib

/-
Verification development for the Disthon client core (src/discord/client.py).

The Python `Client` class is shallowly embedded below:
- the listener tables `events` / `once_events` (Python dicts keyed by event
  name) become insertion-ordered association lists with the usual dict
  operations (get-with-default, set, membership, pop);
- `handle_event` becomes a fueled recursive function (the source recurses
  into itself for the synthetic `event_error` dispatch with no guard, so a
  fuel parameter models potential non-termination); scheduling a handler on
  the running loop is recorded as a trace action, and a handler whose
  scheduling raises synchronously is modelled by a boolean on the handler;
- the connection lifecycle (`connect`, `close`, `alive_loop`) becomes a
  fueled loop over an environment that supplies the results of the external
  REST/gateway collaborators, again producing a trace of I/O actions;
- the command registry (`add_command`, `get_command_named`,
  `process_commands`) is embedded over the same association-list dict model.

Raised Python exceptions are modelled as an `Option` error component of each
result; the state component is always returned as well, matching in-place
mutation of the Python object.
-/

namespace Disthon

/-- A registered handler (a Python coroutine function). `hid` is its
identity, `hname` its `__name__`, `isCoroFn` the result of
`inspect.iscoroutinefunction`, `schedFails` whether
`loop.create_task(coro(*args))` raises synchronously for it, and `errId`
the identity of the exception it raises in that case. -/
structure Handler where
  hid : Nat
  hname : String
  isCoroFn : Bool
  schedFails : Bool
  errId : Nat
  deriving DecidableEq, Repr

/-- First-binding lookup in an insertion-ordered association list, the
model of Python `dict.__getitem__` / `in`. -/
def dFind? {α : Type} : List (String × α) → String → Option α
  | [], _ => none
  | (k', v) :: rest, k => if k' = k then some v else dFind? rest k

/-- Python `dict.get(k, dflt)`. -/
def dGet {α : Type} (d : List (String × α)) (k : String) (dflt : α) : α :=
  (dFind? d k).getD dflt

/-- Python `dict.__setitem__`: replace the binding in place if the key is
present, otherwise append the new binding at the end. -/
def dSet {α : Type} : List (String × α) → String → α → List (String × α)
  | [], k, v => [(k, v)]
  | (k', v') :: rest, k, v =>
    if k' = k then (k, v) :: rest else (k', v') :: dSet rest k v

/-- Python `dict.pop(k, dflt)` as far as the remaining dict is concerned:
all bindings of `k` are removed. -/
def dPop {α : Type} : List (String × α) → String → List (String × α)
  | [], _ => []
  | (k', v) :: rest, k =>
    if k' = k then dPop rest k else (k', v) :: dPop rest k

/-- The two listener tables of a `Client`: `self.events` and
`self.once_events`. -/
structure ClientEvents where
  events : List (String × List Handler)
  once_events : List (String × List Handler)
  deriving DecidableEq, Repr

/-- Error raised by `add_listener` when the callback is not a coroutine
function. -/
inductive LErr
  | notCoroutine
  deriving DecidableEq, Repr

/-- Embedding of `Client.add_listener(func, event=None, *, overwrite=False,
once=False)`. The event name defaults to `func.__name__` when the argument
is `None` or falsy (the source computes `event or func.__name__`). -/
def add_listener (st : ClientEvents) (func : Handler) (event : Option String)
    (overwrite : Bool) (once : Bool) : ClientEvents × Option LErr :=
  let ev := match event with
    | some e => if e = "" then func.hname else e
    | none => func.hname
  if ¬ func.isCoroFn then (st, some LErr.notCoroutine)
  else if once then
    if (dFind? st.once_events ev).isSome ∧ ¬ overwrite then
      (⟨st.events, dSet st.once_events ev (dGet st.once_events ev [] ++ [func])⟩, none)
    else
      (⟨st.events, dSet st.once_events ev [func]⟩, none)
  else
    if (dFind? st.events ev).isSome ∧ ¬ overwrite then
      (⟨dSet st.events ev (dGet st.events ev [] ++ [func]), st.once_events⟩, none)
    else
      (⟨dSet st.events ev [func], st.once_events⟩, none)

/-- The raw `msg["d"]` of an inbound envelope: either an ordinary payload or
an exception object whose `event` attribute was set to the failing handler
(the tagging performed by `handle_event` before its recursive call). -/
inductive Payload
  | raw (d : Nat)
  | errp (errId : Nat) (taggedHid : Nat)
  deriving DecidableEq, Repr

/-- An error propagating out of `handle_event`: a conversion failure from
`DataConverter.convert`, or exhaustion of the recursion fuel (the source has
no guard on its `event_error` recursion). -/
inductive EErr
  | convFail (code : Nat)
  | outOfFuel
  deriving DecidableEq, Repr

/-- Observable actions of one `handle_event` call: scheduling a handler
from `self.events` (`sched`) or from `self.once_events` (`schedOnce`) with
the converted argument list, and entering the recursive `event_error`
dispatch for a tagged error. -/
inductive Action
  | sched (hid : Nat) (args : List Nat)
  | schedOnce (hid : Nat) (args : List Nat)
  | errDispatch (errId : Nat) (taggedHid : Nat)
  deriving DecidableEq, Repr

/-- The external `DataConverter.convert(event, payload)` collaborator. -/
abbrev Conv := String → Payload → Except EErr (List Nat)

/-- Python `str.lower()` on the event-type string (ASCII case folding,
character by character). -/
def strLower (s : String) : String := ⟨s.data.map Char.toLower⟩

/-- One of the two scheduling loops in `handle_event`: iterate over a
snapshot list of handlers, schedule each, and on a synchronous scheduling
failure tag the error with the handler and run the recursive `event_error`
dispatch `disp`; an error raised by the recursive dispatch itself is not
caught and aborts the loop. `isOnce` records which of the two textually
identical loops this is (persistent vs one-shot). -/
def runLoop (disp : ClientEvents → Nat → Nat → ClientEvents × List Action × Option EErr)
    (isOnce : Bool) : List Handler → List Nat → ClientEvents →
    ClientEvents × List Action × Option EErr
  | [], _, st => (st, [], none)
  | g :: rest, args, st =>
    if g.schedFails then
      match disp st g.errId g.hid with
      | (st', tr', some e) => (st', Action.errDispatch g.errId g.hid :: tr', some e)
      | (st', tr', none) =>
        match runLoop disp isOnce rest args st' with
        | (st'', tr'', r) => (st'', Action.errDispatch g.errId g.hid :: (tr' ++ tr''), r)
    else
      match runLoop disp isOnce rest args st with
      | (st', tr', r) =>
        (st', (if isOnce then Action.schedOnce g.hid args else Action.sched g.hid args) :: tr', r)

/-- Embedding of `Client.handle_event(msg)` with `msg = {"t": t, "d": p}`:
lowercase the event type, convert the payload (a conversion error
propagates), schedule every persistent handler from `self.events.get(event,
[])`, then pop and schedule the one-shot handlers from
`self.once_events.pop(event, [])`; a handler whose scheduling raises is
reported through a recursive dispatch of `event_error` with the error
tagged by the handler. -/
def handle_event (conv : Conv) : Nat → ClientEvents → String → Payload →
    ClientEvents × List Action × Option EErr
  | 0, st, _, _ => (st, [], some EErr.outOfFuel)
  | n+1, st, t, p =>
    let ev := (strLower t)
    match conv ev p with
    | .error e => (st, [], some e)
    | .ok args =>
      match runLoop (fun s e h => handle_event conv n s "event_error" (Payload.errp e h))
          false (dGet st.events ev []) args st with
      | (st1, tr1, some e) => (st1, tr1, some e)
      | (st1, tr1, none) =>
        match runLoop (fun s e h => handle_event conv n s "event_error" (Payload.errp e h))
            true (dGet st1.once_events ev []) args
            ⟨st1.events, dPop st1.once_events ev⟩ with
        | (st3, tr2, r) => (st3, tr1 ++ tr2, r)

/-! Dict lemmas. -/

theorem dFind?_dSet_self {α : Type} (d : List (String × α)) (k : String) (v : α) :
    dFind? (dSet d k v) k = some v := by
  induction d with
  | nil => simp [dSet, dFind?]
  | cons kv rest ih =>
    obtain ⟨k', v'⟩ := kv
    by_cases hk : k' = k
    · simp [dSet, hk, dFind?]
    · simp [dSet, hk, dFind?, ih]

theorem dFind?_dPop_self {α : Type} (d : List (String × α)) (k : String) :
    dFind? (dPop d k) k = none := by
  induction d with
  | nil => simp [dPop, dFind?]
  | cons kv rest ih =>
    obtain ⟨k', v'⟩ := kv
    by_cases hk : k' = k
    · simp [dPop, hk, ih]
    · simp [dPop, hk, dFind?, ih]

theorem dFind?_dPop_ne {α : Type} (d : List (String × α)) (k k' : String) (h : k' ≠ k) :
    dFind? (dPop d k) k' = dFind? d k' := by
  induction d with
  | nil => simp [dPop]
  | cons kv rest ih =>
    obtain ⟨k₁, v₁⟩ := kv
    by_cases hk : k₁ = k
    · have hne : ¬ (k₁ = k') := fun hc => h (hc ▸ hk)
      calc dFind? (dPop ((k₁, v₁) :: rest) k) k'
          = dFind? (dPop rest k) k' := by simp only [dPop, if_pos hk]
        _ = dFind? rest k' := ih
        _ = dFind? ((k₁, v₁) :: rest) k' := by simp only [dFind?, if_neg hne]
    · simp only [dPop, if_neg hk, dFind?, ih]

/-! Characterization of `runLoop` when no handler in the list fails:
the state is untouched and the trace is exactly one scheduling action per
handler, in order. -/

theorem runLoop_ok (disp : ClientEvents → Nat → Nat → ClientEvents × List Action × Option EErr)
    (isOnce : Bool) (args : List Nat) :
    ∀ (hs : List Handler) (st : ClientEvents), (∀ g ∈ hs, g.schedFails = false) →
    runLoop disp isOnce hs args st =
      (st, hs.map (fun g => if isOnce then Action.schedOnce g.hid args else Action.sched g.hid args),
        none) := by
  intro hs
  induction hs with
  | nil => intro st _; simp [runLoop]
  | cons g rest ih =>
    intro st hall
    have hg : g.schedFails = false := hall g (List.mem_cons_self g rest)
    have hrest : ∀ x ∈ rest, x.schedFails = false := fun x hx => hall x (List.mem_cons_of_mem g hx)
    simp [runLoop, hg, ih st hrest]

/-- Splitting `runLoop` across an append when the first part completes
without a propagating error. -/
theorem runLoop_append (disp : ClientEvents → Nat → Nat → ClientEvents × List Action × Option EErr)
    (isOnce : Bool) (args : List Nat) :
    ∀ (xs ys : List Handler) (st st1 : ClientEvents) (tr1 : List Action),
    runLoop disp isOnce xs args st = (st1, tr1, none) →
    runLoop disp isOnce (xs ++ ys) args st =
      ((runLoop disp isOnce ys args st1).1,
       tr1 ++ (runLoop disp isOnce ys args st1).2.1,
       (runLoop disp isOnce ys args st1).2.2) := by
  intro xs
  induction xs with
  | nil =>
    intro ys st st1 tr1 h
    simp [runLoop] at h
    obtain ⟨h1, h2⟩ := h
    subst h1; subst h2
    simp
  | cons g rest ih =>
    intro ys st st1 tr1 h
    cases hgf : g.schedFails with
    | true =>
      rcases hd : disp st g.errId g.hid with ⟨st', tr', r'⟩
      cases r' with
      | some e =>
        have hcomp : runLoop disp isOnce (g :: rest) args st =
            (st', Action.errDispatch g.errId g.hid :: tr', some e) := by
          simp [runLoop, hgf, hd]
        have hbad : (some e : Option EErr) = none :=
          congrArg (fun x => x.2.2) (hcomp.symm.trans h)
        simp at hbad
      | none =>
        rcases hr : runLoop disp isOnce rest args st' with ⟨st'', tr'', r''⟩
        have hcomp : runLoop disp isOnce (g :: rest) args st =
            (st'', Action.errDispatch g.errId g.hid :: (tr' ++ tr''), r'') := by
          simp [runLoop, hgf, hd, hr]
        have heq := hcomp.symm.trans h
        have h1 : st'' = st1 := congrArg (fun x => x.1) heq
        have h2 : Action.errDispatch g.errId g.hid :: (tr' ++ tr'') = tr1 :=
          congrArg (fun x => x.2.1) heq
        have h3 : r'' = none := congrArg (fun x => x.2.2) heq
        subst h1
        subst h2
        subst h3
        have hsplit := ih ys st' st'' tr'' hr
        simp [runLoop, hgf, hd, hsplit, List.append_assoc]
    | false =>
      rcases hr : runLoop disp isOnce rest args st with ⟨st', tr', r'⟩
      have hcomp : runLoop disp isOnce (g :: rest) args st =
          (st', (if isOnce then Action.schedOnce g.hid args else Action.sched g.hid args) :: tr',
            r') := by
        simp [runLoop, hgf, hr]
      have heq := hcomp.symm.trans h
      have h1 : st' = st1 := congrArg (fun x => x.1) heq
      have h3 : r' = none := congrArg (fun x => x.2.2) heq
      have h2 : (if isOnce then Action.schedOnce g.hid args else Action.sched g.hid args) :: tr'
          = tr1 := congrArg (fun x => x.2.1) heq
      subst h1
      subst h2
      subst h3
      have hsplit := ih ys st st' tr' hr
      simp [runLoop, hgf, hsplit]

/-- Characterization of one `handle_event` call when every handler the
dispatch reaches schedules without raising: the persistent handlers of the
lowercased event name are scheduled first, then the one-shot handlers, each
with the converted arguments; the one-shot entry is drained; no error
propagates. -/
theorem handle_event_benign (conv : Conv) (n : Nat) (st : ClientEvents) (t : String) (p : Payload)
    (args : List Nat)
    (hconv : conv (strLower t) p = .ok args)
    (hp : ∀ g ∈ dGet st.events (strLower t) [], g.schedFails = false)
    (ho : ∀ g ∈ dGet st.once_events (strLower t) [], g.schedFails = false) :
    handle_event conv (n+1) st t p =
      (⟨st.events, dPop st.once_events (strLower t)⟩,
       (dGet st.events (strLower t) []).map (fun g => Action.sched g.hid args) ++
       (dGet st.once_events (strLower t) []).map (fun g => Action.schedOnce g.hid args),
       none) := by
  have h1 := runLoop_ok (fun s e h => handle_event conv n s "event_error" (Payload.errp e h))
      false args (dGet st.events (strLower t) []) st hp
  have h2 := runLoop_ok (fun s e h => handle_event conv n s "event_error" (Payload.errp e h))
      true args (dGet st.once_events (strLower t) [])
      ⟨st.events, dPop st.once_events (strLower t)⟩ ho
  simp [handle_event, hconv, h1, h2]

/-- Within one dispatch the listener state only loses one-shot entries:
every key of `once_events` is either untouched or removed. -/
def StPred (s s' : ClientEvents) : Prop :=
  ∀ k, dFind? s'.once_events k = dFind? s.once_events k ∨ dFind? s'.once_events k = none

theorem stPred_refl (s : ClientEvents) : StPred s s := fun _ => Or.inl rfl

theorem stPred_trans {a b c : ClientEvents} (h1 : StPred a b) (h2 : StPred b c) : StPred a c := by
  intro k
  cases h2 k with
  | inl heq =>
    cases h1 k with
    | inl heq' => exact Or.inl (heq.trans heq')
    | inr hnone => exact Or.inr (heq.trans hnone)
  | inr hnone => exact Or.inr hnone

theorem runLoop_pred (disp : ClientEvents → Nat → Nat → ClientEvents × List Action × Option EErr)
    (hdisp : ∀ s e h, StPred s (disp s e h).1) (isOnce : Bool) (args : List Nat) :
    ∀ (hs : List Handler) (st : ClientEvents), StPred st (runLoop disp isOnce hs args st).1 := by
  intro hs
  induction hs with
  | nil => intro st; simp only [runLoop]; exact stPred_refl st
  | cons g rest ih =>
    intro st
    cases hgf : g.schedFails with
    | true =>
      rcases hd : disp st g.errId g.hid with ⟨st', tr', r'⟩
      have hp1 : StPred st st' := by have := hdisp st g.errId g.hid; rwa [hd] at this
      cases r' with
      | some e =>
        have hcomp : runLoop disp isOnce (g :: rest) args st =
            (st', Action.errDispatch g.errId g.hid :: tr', some e) := by
          simp [runLoop, hgf, hd]
        rw [hcomp]
        exact hp1
      | none =>
        rcases hr : runLoop disp isOnce rest args st' with ⟨st'', tr'', r''⟩
        have hp2 : StPred st' st'' := by have := ih st'; rwa [hr] at this
        have hcomp : runLoop disp isOnce (g :: rest) args st =
            (st'', Action.errDispatch g.errId g.hid :: (tr' ++ tr''), r'') := by
          simp [runLoop, hgf, hd, hr]
        rw [hcomp]
        exact stPred_trans hp1 hp2
    | false =>
      rcases hr : runLoop disp isOnce rest args st with ⟨st', tr', r'⟩
      have hp := ih st
      rw [hr] at hp
      have hcomp : runLoop disp isOnce (g :: rest) args st =
          (st', (if isOnce then Action.schedOnce g.hid args else Action.sched g.hid args) :: tr',
            r') := by
        simp [runLoop, hgf, hr]
      rw [hcomp]
      exact hp

/-- Popping the one-shot entry of the dispatched event only removes keys. -/
theorem stPred_dPop (s : ClientEvents) (ev : String) :
    StPred s ⟨s.events, dPop s.once_events ev⟩ := by
  intro k
  by_cases hk : k = ev
  · subst hk; exact Or.inr (dFind?_dPop_self _ _)
  · exact Or.inl (dFind?_dPop_ne _ _ _ hk)

theorem handle_event_pred (conv : Conv) :
    ∀ (n : Nat) (st : ClientEvents) (t : String) (p : Payload),
    StPred st (handle_event conv n st t p).1 := by
  intro n
  induction n with
  | zero => intro st t p; simp only [handle_event]; exact stPred_refl st
  | succ n ih =>
    intro st t p
    cases hc : conv (strLower t) p with
    | error e =>
      have hcomp : handle_event conv (n+1) st t p = (st, [], some e) := by
        simp [handle_event, hc]
      rw [hcomp]
      exact stPred_refl st
    | ok args =>
      have hdisp : ∀ s e h, StPred s (handle_event conv n s "event_error" (Payload.errp e h)).1 :=
        fun s e h => ih s "event_error" (Payload.errp e h)
      rcases h1 : runLoop (fun s e h => handle_event conv n s "event_error" (Payload.errp e h))
          false (dGet st.events (strLower t) []) args st with ⟨st1, tr1, r1⟩
      have hp1 : StPred st st1 := by
        have := runLoop_pred _ hdisp false args (dGet st.events (strLower t) []) st
        rwa [h1] at this
      cases r1 with
      | some e =>
        have hcomp : handle_event conv (n+1) st t p = (st1, tr1, some e) := by
          simp [handle_event, hc, h1]
        rw [hcomp]
        exact hp1
      | none =>
        rcases h2 : runLoop (fun s e h => handle_event conv n s "event_error" (Payload.errp e h))
            true (dGet st1.once_events (strLower t) []) args
            ⟨st1.events, dPop st1.once_events (strLower t)⟩ with ⟨st3, tr2, r2⟩
        have hp2 : StPred (⟨st1.events, dPop st1.once_events (strLower t)⟩ : ClientEvents) st3 := by
          have := runLoop_pred _ hdisp true args (dGet st1.once_events (strLower t) [])
            (⟨st1.events, dPop st1.once_events (strLower t)⟩ : ClientEvents)
          rwa [h2] at this
        have hcomp : handle_event conv (n+1) st t p = (st3, tr1 ++ tr2, r2) := by
          simp [handle_event, hc, h1, h2]
        rw [hcomp]
        exact stPred_trans hp1 (stPred_trans (stPred_dPop st1 (strLower t)) hp2)

/-- The handler identity `hid` is present in some one-shot entry of `s`. -/
def onceMem (s : ClientEvents) (hid : Nat) : Prop :=
  ∃ k l, dFind? s.once_events k = some l ∧ hid ∈ l.map Handler.hid

theorem onceMem_mono {s s' : ClientEvents} (h : StPred s s') {hid : Nat} :
    onceMem s' hid → onceMem s hid := by
  rintro ⟨k, l, hf, hm⟩
  cases h k with
  | inl heq => exact ⟨k, l, heq ▸ hf, hm⟩
  | inr hnone =>
    rw [hf] at hnone
    exact absurd hnone (by simp)

/-- Every `schedOnce` action in the trace names a handler identity drawn
from `A`. -/
def onceTraceOK (tr : List Action) (A : Nat → Prop) : Prop :=
  ∀ hid args, Action.schedOnce hid args ∈ tr → A hid

theorem onceTraceOK_nil {A : Nat → Prop} : onceTraceOK [] A := by
  intro hid as hm
  simp at hm

theorem onceTraceOK_cons_errD {tr : List Action} {A : Nat → Prop} {e h : Nat}
    (htr : onceTraceOK tr A) : onceTraceOK (Action.errDispatch e h :: tr) A := by
  intro hid as hm
  rcases List.mem_cons.mp hm with hm1 | hm2
  · simp at hm1
  · exact htr hid as hm2

theorem onceTraceOK_cons_sched {tr : List Action} {A : Nat → Prop} {h : Nat} {as0 : List Nat}
    (htr : onceTraceOK tr A) : onceTraceOK (Action.sched h as0 :: tr) A := by
  intro hid as hm
  rcases List.mem_cons.mp hm with hm1 | hm2
  · simp at hm1
  · exact htr hid as hm2

theorem onceTraceOK_cons_schedOnce {tr : List Action} {A : Nat → Prop} {h : Nat} {as0 : List Nat}
    (hA : A h) (htr : onceTraceOK tr A) : onceTraceOK (Action.schedOnce h as0 :: tr) A := by
  intro hid as hm
  rcases List.mem_cons.mp hm with hm1 | hm2
  · injection hm1 with h1 h2
    exact h1 ▸ hA
  · exact htr hid as hm2

theorem onceTraceOK_append {t1 t2 : List Action} {A : Nat → Prop}
    (h1 : onceTraceOK t1 A) (h2 : onceTraceOK t2 A) : onceTraceOK (t1 ++ t2) A := by
  intro hid as hm
  rcases List.mem_append.mp hm with hm1 | hm2
  · exact h1 hid as hm1
  · exact h2 hid as hm2

theorem runLoop_onceTrace (disp : ClientEvents → Nat → Nat → ClientEvents × List Action × Option EErr)
    (A : Nat → Prop)
    (hdisp : ∀ s e h, onceTraceOK (disp s e h).2.1 (onceMem s))
    (hdispP : ∀ s e h, StPred s (disp s e h).1)
    (isOnce : Bool) (args : List Nat) :
    ∀ (hs : List Handler) (st : ClientEvents),
    (∀ hid, onceMem st hid → A hid) → (isOnce = true → ∀ g ∈ hs, A g.hid) →
    onceTraceOK (runLoop disp isOnce hs args st).2.1 A := by
  intro hs
  induction hs with
  | nil =>
    intro st _ _
    simp only [runLoop]
    exact onceTraceOK_nil
  | cons g rest ih =>
    intro st hA hOnce
    have hOnceRest : isOnce = true → ∀ x ∈ rest, A x.hid :=
      fun ho x hx => hOnce ho x (List.mem_cons_of_mem g hx)
    cases hgf : g.schedFails with
    | true =>
      rcases hd : disp st g.errId g.hid with ⟨st', tr', r'⟩
      have htr' : onceTraceOK tr' A := by
        intro hid as hm
        have hde := hdisp st g.errId g.hid
        rw [hd] at hde
        exact hA hid (hde hid as hm)
      have hp : StPred st st' := by have := hdispP st g.errId g.hid; rwa [hd] at this
      cases r' with
      | some e =>
        have hcomp : runLoop disp isOnce (g :: rest) args st =
            (st', Action.errDispatch g.errId g.hid :: tr', some e) := by
          simp [runLoop, hgf, hd]
        rw [hcomp]
        exact onceTraceOK_cons_errD htr'
      | none =>
        rcases hr : runLoop disp isOnce rest args st' with ⟨st'', tr'', r''⟩
        have htr'' : onceTraceOK tr'' A := by
          have := ih st' (fun hid hm => hA hid (onceMem_mono hp hm)) hOnceRest
          rwa [hr] at this
        have hcomp : runLoop disp isOnce (g :: rest) args st =
            (st'', Action.errDispatch g.errId g.hid :: (tr' ++ tr''), r'') := by
          simp [runLoop, hgf, hd, hr]
        rw [hcomp]
        exact onceTraceOK_cons_errD (onceTraceOK_append htr' htr'')
    | false =>
      rcases hr : runLoop disp isOnce rest args st with ⟨st', tr', r'⟩
      have htr' : onceTraceOK tr' A := by
        have := ih st hA hOnceRest
        rwa [hr] at this
      have hcomp : runLoop disp isOnce (g :: rest) args st =
          (st', (if isOnce then Action.schedOnce g.hid args else Action.sched g.hid args) :: tr',
            r') := by
        simp [runLoop, hgf, hr]
      rw [hcomp]
      cases ho : isOnce with
      | true =>
        simp only [ho, if_true]
        exact onceTraceOK_cons_schedOnce (hOnce ho g (List.mem_cons_self g rest)) htr'
      | false =>
        simp only [ho, if_false]
        exact onceTraceOK_cons_sched htr'

theorem handle_event_onceTrace (conv : Conv) :
    ∀ (n : Nat) (st : ClientEvents) (t : String) (p : Payload),
    onceTraceOK (handle_event conv n st t p).2.1 (onceMem st) := by
  intro n
  induction n with
  | zero =>
    intro st t p
    simp only [handle_event]
    exact onceTraceOK_nil
  | succ n ih =>
    intro st t p
    cases hc : conv (strLower t) p with
    | error e =>
      have hcomp : handle_event conv (n+1) st t p = (st, [], some e) := by
        simp [handle_event, hc]
      rw [hcomp]
      exact onceTraceOK_nil
    | ok args =>
      have hdisp : ∀ s e h,
          onceTraceOK (handle_event conv n s "event_error" (Payload.errp e h)).2.1 (onceMem s) :=
        fun s e h => ih s "event_error" (Payload.errp e h)
      have hdispP : ∀ s e h, StPred s (handle_event conv n s "event_error" (Payload.errp e h)).1 :=
        fun s e h => handle_event_pred conv n s "event_error" (Payload.errp e h)
      rcases h1 : runLoop (fun s e h => handle_event conv n s "event_error" (Payload.errp e h))
          false (dGet st.events (strLower t) []) args st with ⟨st1, tr1, r1⟩
      have hp1 : StPred st st1 := by
        have := runLoop_pred _ hdispP false args (dGet st.events (strLower t) []) st
        rwa [h1] at this
      have htr1 : onceTraceOK tr1 (onceMem st) := by
        have := runLoop_onceTrace _ (onceMem st) hdisp hdispP false args
          (dGet st.events (strLower t) []) st (fun _ hm => hm)
          (fun hff => absurd hff (by decide))
        rwa [h1] at this
      cases r1 with
      | some e =>
        have hcomp : handle_event conv (n+1) st t p = (st1, tr1, some e) := by
          simp [handle_event, hc, h1]
        rw [hcomp]
        exact htr1
      | none =>
        rcases h2 : runLoop (fun s e h => handle_event conv n s "event_error" (Payload.errp e h))
            true (dGet st1.once_events (strLower t) []) args
            ⟨st1.events, dPop st1.once_events (strLower t)⟩ with ⟨st3, tr2, r2⟩
        have hOnce2 : (true : Bool) = true →
            ∀ g ∈ dGet st1.once_events (strLower t) [], onceMem st g.hid := by
          intro _ g hg
          cases hfind : dFind? st1.once_events (strLower t) with
          | none =>
            rw [dGet, hfind] at hg
            simp at hg
          | some l =>
            rw [dGet, hfind] at hg
            simp at hg
            exact onceMem_mono hp1 ⟨(strLower t), l, hfind, List.mem_map_of_mem Handler.hid hg⟩
        have htr2 : onceTraceOK tr2 (onceMem st) := by
          have := runLoop_onceTrace _ (onceMem st) hdisp hdispP true args
            (dGet st1.once_events (strLower t) [])
            (⟨st1.events, dPop st1.once_events (strLower t)⟩ : ClientEvents)
            (fun hid hm => onceMem_mono hp1 (onceMem_mono (stPred_dPop st1 (strLower t)) hm))
            hOnce2
          rwa [h2] at this
        have hcomp : handle_event conv (n+1) st t p = (st3, tr1 ++ tr2, r2) := by
          simp [handle_event, hc, h1, h2]
        rw [hcomp]
        exact onceTraceOK_append htr1 htr2

/-- C4: one-shot handlers are delivered at most once. If a dispatch of an
event reaches the one-shot phase (the persistent phase returns without a
propagating error), the entire one-shot entry for the lowercased event name
is removed from the table — even if the one-shot phase itself fails partway
— and no later dispatch (of any event, with any fuel) ever schedules a
one-shot handler that was drained, provided its identity occurred in no
other one-shot entry. -/
theorem c4_once_handlers_drained (conv : Conv) (n : Nat) (st : ClientEvents) (t : String)
    (p : Payload) (args : List Nat) (st1 : ClientEvents) (tr1 : List Action)
    (l : List Handler) (h : Handler)
    (hconv : conv (strLower t) p = .ok args)
    (hpers : runLoop (fun s e hd => handle_event conv n s "event_error" (Payload.errp e hd))
        false (dGet st.events (strLower t) []) args st = (st1, tr1, none))
    (_hl : dFind? st.once_events (strLower t) = some l)
    (_hmem : h ∈ l)
    (huniq : ∀ k l', dFind? st.once_events k = some l' → h.hid ∈ l'.map Handler.hid →
      k = (strLower t)) :
    dFind? ((handle_event conv (n+1) st t p).1).once_events (strLower t) = none ∧
    ∀ (m : Nat) (t2 : String) (p2 : Payload) (argsx : List Nat),
      Action.schedOnce h.hid argsx ∉
        (handle_event conv m ((handle_event conv (n+1) st t p).1) t2 p2).2.1 := by
  have hdispP : ∀ s e hd, StPred s (handle_event conv n s "event_error" (Payload.errp e hd)).1 :=
    fun s e hd => handle_event_pred conv n s "event_error" (Payload.errp e hd)
  rcases h2 : runLoop (fun s e hd => handle_event conv n s "event_error" (Payload.errp e hd))
      true (dGet st1.once_events (strLower t) []) args
      ⟨st1.events, dPop st1.once_events (strLower t)⟩ with ⟨st3, tr2, r2⟩
  have hcomp : handle_event conv (n+1) st t p = (st3, tr1 ++ tr2, r2) := by
    simp [handle_event, hconv, hpers, h2]
  have hp1 : StPred st st1 := by
    have := runLoop_pred _ hdispP false args (dGet st.events (strLower t) []) st
    rwa [hpers] at this
  have hp2 : StPred (⟨st1.events, dPop st1.once_events (strLower t)⟩ : ClientEvents) st3 := by
    have := runLoop_pred _ hdispP true args (dGet st1.once_events (strLower t) [])
      (⟨st1.events, dPop st1.once_events (strLower t)⟩ : ClientEvents)
    rwa [h2] at this
  have hdrained : dFind? st3.once_events (strLower t) = none := by
    cases hp2 (strLower t) with
    | inl heq => exact heq.trans (dFind?_dPop_self _ _)
    | inr hnone => exact hnone
  have hpAll : StPred st st3 :=
    stPred_trans hp1 (stPred_trans (stPred_dPop st1 (strLower t)) hp2)
  have hgone : ¬ onceMem st3 h.hid := by
    rintro ⟨k, l', hf, hm⟩
    cases hpAll k with
    | inl heq =>
      have hk := huniq k l' (heq.symm.trans hf) hm
      rw [hk] at hf
      rw [hf] at hdrained
      exact absurd hdrained (by simp)
    | inr hnone =>
      rw [hf] at hnone
      exact absurd hnone (by simp)
  constructor
  · rw [hcomp]
    exact hdrained
  · intro m t2 p2 argsx hmemTr
    rw [hcomp] at hmemTr
    exact hgone (handle_event_onceTrace conv m st3 t2 p2 h.hid argsx hmemTr)

/-- Concrete data for witnesses: a converter that always succeeds with an
empty argument list, a well-behaved one-shot handler, and a client whose
tables hold only that handler under the name "ping". -/
def convOkD : Conv := fun _ _ => Except.ok []

def hPingOnce : Handler := ⟨7, "on_ping", true, false, 0⟩

def stOnceD : ClientEvents := ⟨[], [("ping", [hPingOnce])]⟩

theorem c4_once_handlers_drained_witness :
    hPingOnce ∈ [hPingOnce] ∧
    dFind? ((handle_event convOkD 1 stOnceD "ping" (Payload.raw 0)).1).once_events
      (strLower "ping") = none ∧
    Action.schedOnce 7 [] ∉
      (handle_event convOkD 1 ((handle_event convOkD 1 stOnceD "ping" (Payload.raw 0)).1)
        "ping" (Payload.raw 0)).2.1 := by
  have huniq : ∀ k l', dFind? stOnceD.once_events k = some l' →
      hPingOnce.hid ∈ l'.map Handler.hid → k = (strLower "ping") := by
    intro k l' hf hm
    by_cases hk : "ping" = k
    · exact hk.symm.trans (by decide)
    · rw [stOnceD, dFind?, if_neg hk] at hf
      simp [dFind?] at hf
  have hmain := c4_once_handlers_drained convOkD 0 stOnceD "ping" (Payload.raw 0) []
    stOnceD [] [hPingOnce] hPingOnce rfl rfl rfl (List.mem_singleton.mpr rfl) huniq
  exact ⟨List.mem_singleton.mpr rfl, hmain.1, hmain.2 1 "ping" (Payload.raw 0) []⟩

/-- Recognizer for the `event_error` re-dispatch action. -/
def isErrD : Action → Bool
  | Action.errDispatch _ _ => true
  | _ => false

theorem countP_isErrD_map_sched (l : List Handler) (a : List Nat) :
    (l.map (fun g => Action.sched g.hid a)).countP isErrD = 0 := by
  rw [List.countP_eq_zero]
  intro x hx
  rcases List.mem_map.mp hx with ⟨g, -, rfl⟩
  simp [isErrD]

theorem countP_isErrD_map_schedOnce (l : List Handler) (a : List Nat) :
    (l.map (fun g => Action.schedOnce g.hid a)).countP isErrD = 0 := by
  rw [List.countP_eq_zero]
  intro x hx
  rcases List.mem_map.mp hx with ⟨g, -, rfl⟩
  simp [isErrD]

theorem dGet_dPop_ne {α : Type} (d : List (String × α)) (k k' : String) (dflt : α)
    (h : k' ≠ k) : dGet (dPop d k) k' dflt = dGet d k' dflt := by
  unfold dGet
  rw [dFind?_dPop_ne _ _ _ h]

/-- C3: per-handler failure isolation in `handle_event`. If the persistent
handler list of the dispatched event is `pre ++ h :: post` where only `h`
fails to schedule, the one-shot handlers of the event and all `event_error`
handlers are well behaved, and conversion succeeds, then: the dispatch
completes without a propagating error; its trace is the `pre` schedulings,
then exactly one `event_error` re-dispatch carrying `h`'s error tagged with
`h`'s identity (whose own trace is that of the recursive `event_error`
dispatch), then the schedulings of every handler after `h` — persistent
`post` first, then the one-shot handlers, in order, all with the converted
arguments. -/
theorem c3_handler_failure_isolated (conv : Conv) (n : Nat) (st : ClientEvents) (t : String)
    (p : Payload) (args argsE : List Nat) (pre post : List Handler) (h : Handler)
    (hne : strLower t ≠ "event_error")
    (hconv : conv (strLower t) p = .ok args)
    (hlist : dGet st.events (strLower t) [] = pre ++ h :: post)
    (hfail : h.schedFails = true)
    (hpre : ∀ g ∈ pre, g.schedFails = false)
    (hpost : ∀ g ∈ post, g.schedFails = false)
    (honce : ∀ g ∈ dGet st.once_events (strLower t) [], g.schedFails = false)
    (hEp : ∀ g ∈ dGet st.events "event_error" [], g.schedFails = false)
    (hEo : ∀ g ∈ dGet st.once_events "event_error" [], g.schedFails = false)
    (hconvE : conv "event_error" (Payload.errp h.errId h.hid) = .ok argsE) :
    (handle_event conv (n+2) st t p).2.1 =
      pre.map (fun g => Action.sched g.hid args) ++
      Action.errDispatch h.errId h.hid ::
        ((handle_event conv (n+1) st "event_error" (Payload.errp h.errId h.hid)).2.1 ++
         post.map (fun g => Action.sched g.hid args) ++
         (dGet st.once_events (strLower t) []).map (fun g => Action.schedOnce g.hid args)) ∧
    (handle_event conv (n+2) st t p).2.2 = none ∧
    ((handle_event conv (n+2) st t p).2.1).countP isErrD = 1 := by
  obtain ⟨m, hm⟩ : ∃ m, m = n + 1 := ⟨n + 1, rfl⟩
  have hn2 : n + 2 = m + 1 := by omega
  rw [hn2, ← hm]
  have hEE := handle_event_benign conv n st "event_error" (Payload.errp h.errId h.hid) argsE
    hconvE hEp hEo
  rw [← hm] at hEE
  have hlowE : strLower "event_error" = "event_error" := rfl
  rw [hlowE] at hEE
  set stE : ClientEvents := ⟨st.events, dPop st.once_events "event_error"⟩ with hstE
  -- the persistent loop over `pre`
  have h1 := runLoop_ok (fun s e hd => handle_event conv m s "event_error" (Payload.errp e hd))
    false args pre st hpre
  -- the persistent loop over `post`, run from the state left by the
  -- recursive event_error dispatch
  have h3 := runLoop_ok (fun s e hd => handle_event conv m s "event_error" (Payload.errp e hd))
    false args post stE hpost
  -- the loop over `h :: post`
  have h2 : runLoop (fun s e hd => handle_event conv m s "event_error" (Payload.errp e hd))
      false (h :: post) args st =
      (stE,
       Action.errDispatch h.errId h.hid ::
         ((handle_event conv m st "event_error" (Payload.errp h.errId h.hid)).2.1 ++
          post.map (fun g => Action.sched g.hid args)),
       none) := by
    simp [runLoop, hfail, hEE, h3]
  -- the whole persistent loop
  have hPers : runLoop (fun s e hd => handle_event conv m s "event_error" (Payload.errp e hd))
      false (dGet st.events (strLower t) []) args st =
      (stE,
       pre.map (fun g => Action.sched g.hid args) ++
       Action.errDispatch h.errId h.hid ::
         ((handle_event conv m st "event_error" (Payload.errp h.errId h.hid)).2.1 ++
          post.map (fun g => Action.sched g.hid args)),
       none) := by
    rw [hlist]
    have happ := runLoop_append
      (fun s e hd => handle_event conv m s "event_error" (Payload.errp e hd))
      false args pre (h :: post) st st
      (pre.map (fun g => if false then Action.schedOnce g.hid args else Action.sched g.hid args))
      h1
    rw [h2] at happ
    simp at happ
    simpa using happ
  -- the one-shot list of the event is untouched by the event_error pop
  have honceL : dGet stE.once_events (strLower t) [] = dGet st.once_events (strLower t) [] := by
    rw [hstE]
    exact dGet_dPop_ne _ _ _ _ hne
  have h4 := runLoop_ok (fun s e hd => handle_event conv m s "event_error" (Payload.errp e hd))
    true args (dGet st.once_events (strLower t) [])
    ⟨stE.events, dPop stE.once_events (strLower t)⟩ honce
  have hcomp : handle_event conv (m+1) st t p =
      (⟨stE.events, dPop stE.once_events (strLower t)⟩,
       (pre.map (fun g => Action.sched g.hid args) ++
        Action.errDispatch h.errId h.hid ::
          ((handle_event conv m st "event_error" (Payload.errp h.errId h.hid)).2.1 ++
           post.map (fun g => Action.sched g.hid args))) ++
       (dGet st.once_events (strLower t) []).map (fun g => Action.schedOnce g.hid args),
       none) := by
    simp only [handle_event, hconv, hPers, honceL, h4]
    simp
  refine ⟨?_, ?_, ?_⟩
  · rw [hcomp]
    simp [List.append_assoc]
  · rw [hcomp]
  · rw [hcomp]
    simp only [hEE]
    simp only [List.countP_append, List.countP_cons, countP_isErrD_map_sched,
      countP_isErrD_map_schedOnce, isErrD]
    simp

/-- Concrete handlers for the C3 witness: under "x" a well-behaved handler,
one whose scheduling raises, and another well-behaved one; a well-behaved
`event_error` handler; a well-behaved one-shot handler for "x". -/
def hA3 : Handler := ⟨1, "a", true, false, 0⟩

def hB3 : Handler := ⟨2, "b", true, true, 5⟩

def hC3 : Handler := ⟨3, "c", true, false, 0⟩

def hE3 : Handler := ⟨4, "on_event_error", true, false, 0⟩

def hO3 : Handler := ⟨6, "o", true, false, 0⟩

def stC3 : ClientEvents :=
  ⟨[("x", [hA3, hB3, hC3]), ("event_error", [hE3])], [("x", [hO3])]⟩

theorem c3_handler_failure_isolated_witness :
    hB3.schedFails = true ∧
    (handle_event convOkD 2 stC3 "x" (Payload.raw 0)).2.2 = none ∧
    ((handle_event convOkD 2 stC3 "x" (Payload.raw 0)).2.1).countP isErrD = 1 := by
  have hmain := c3_handler_failure_isolated convOkD 0 stC3 "x" (Payload.raw 0) [] []
    [hA3] [hC3] hB3 (by decide) rfl (by decide) rfl (by decide) (by decide) (by decide)
    (by decide) (by decide) rfl
  exact ⟨rfl, hmain.2.1, hmain.2.2⟩

/-- C6 counterexample data: one handler registered under the uppercase
name "PING"; no one-shot handlers. -/
def hPingUp : Handler := ⟨9, "on_ping", true, false, 0⟩

def stUp : ClientEvents := ⟨[("PING", [hPingUp])], []⟩

/-- C6 counterexample: the handler is registered under "PING", the inbound
envelope type "Ping" equals "PING" up to letter case, yet dispatching the
envelope schedules nothing — registration keys are not normalized, so a
handler registered under a non-lowercase name is not invoked. -/
theorem c6_counterexample :
    strLower "Ping" = strLower "PING" ∧
    hPingUp ∈ dGet stUp.events "PING" [] ∧
    (handle_event convOkD 5 stUp "Ping" (Payload.raw 0)).2.1 = [] := by
  refine ⟨by decide, by decide, by decide⟩

/-- C6 (amended): dispatch matching lowercases the inbound event-type
string and compares it with the registration key exactly. Hence for every
handler registered (persistently or one-shot) under a key `N` and every
envelope whose type lowercases to `N`, dispatching the envelope schedules
the handler with the converted arguments — provided conversion succeeds and
no handler of `N` fails to schedule. Handlers registered under keys that
are not the lowercase image of the envelope type are not invoked. -/
theorem c6_amended_case_matching (conv : Conv) (n : Nat) (st : ClientEvents) (t N : String)
    (p : Payload) (args : List Nat)
    (hkey : strLower t = N)
    (hconv : conv N p = .ok args)
    (hp : ∀ g ∈ dGet st.events N [], g.schedFails = false)
    (ho : ∀ g ∈ dGet st.once_events N [], g.schedFails = false) :
    (∀ g ∈ dGet st.events N [],
       Action.sched g.hid args ∈ (handle_event conv (n+1) st t p).2.1) ∧
    (∀ g ∈ dGet st.once_events N [],
       Action.schedOnce g.hid args ∈ (handle_event conv (n+1) st t p).2.1) := by
  subst hkey
  rw [handle_event_benign conv n st t p args hconv hp ho]
  constructor
  · intro g hg
    exact List.mem_append_left _ (List.mem_map_of_mem _ hg)
  · intro g hg
    exact List.mem_append_right _ (List.mem_map_of_mem _ hg)

/-- Data for the C6 amended witness: a handler registered under the
lowercase key "ping". -/
def hPingLow : Handler := ⟨11, "on_ping", true, false, 0⟩

def stLow : ClientEvents := ⟨[("ping", [hPingLow])], []⟩

theorem c6_amended_case_matching_witness :
    strLower "PING" = "ping" ∧
    Action.sched 11 [] ∈ (handle_event convOkD 3 stLow "PING" (Payload.raw 0)).2.1 := by
  have hmain := c6_amended_case_matching convOkD 2 stLow "PING" "ping" (Payload.raw 0) []
    (by decide) rfl (by decide) (by decide)
  exact ⟨by decide, hmain.1 hPingLow (by decide)⟩

/-- The `lookup` view of the listener tables: the sequence registered for a
name under the given kind (one-shot or persistent). -/
def listenersFor (st : ClientEvents) (once : Bool) (ev : String) : List Handler :=
  dGet (if once then st.once_events else st.events) ev []

theorem add_listener_append (st : ClientEvents) (g : Handler) (ev : String) (once : Bool)
    (hev : ¬ ev = "") (hg : g.isCoroFn = true) :
    listenersFor (add_listener st g (some ev) false once).1 once ev =
      listenersFor st once ev ++ [g] := by
  cases once with
  | true =>
    cases hf : dFind? st.once_events ev with
    | some v => simp [add_listener, hev, hg, hf, listenersFor, dGet, dFind?_dSet_self]
    | none => simp [add_listener, hev, hg, hf, listenersFor, dGet, dFind?_dSet_self]
  | false =>
    cases hf : dFind? st.events ev with
    | some v => simp [add_listener, hev, hg, hf, listenersFor, dGet, dFind?_dSet_self]
    | none => simp [add_listener, hev, hg, hf, listenersFor, dGet, dFind?_dSet_self]

theorem add_listener_overwrite (st : ClientEvents) (g : Handler) (ev : String) (once : Bool)
    (hev : ¬ ev = "") (hg : g.isCoroFn = true) :
    listenersFor (add_listener st g (some ev) true once).1 once ev = [g] := by
  cases once with
  | true => simp [add_listener, hev, hg, listenersFor, dGet, dFind?_dSet_self]
  | false => simp [add_listener, hev, hg, listenersFor, dGet, dFind?_dSet_self]

/-- A sequence of `add_listener` registrations for one name and kind,
without overwrite. -/
def reg_sequence (st : ClientEvents) (ev : String) (once : Bool) (hs : List Handler) :
    ClientEvents :=
  hs.foldl (fun s g => (add_listener s g (some ev) false once).1) st

theorem reg_sequence_lookup (ev : String) (once : Bool) (hev : ¬ ev = "") :
    ∀ (hs : List Handler) (st : ClientEvents), (∀ g ∈ hs, g.isCoroFn = true) →
    listenersFor (reg_sequence st ev once hs) once ev = listenersFor st once ev ++ hs := by
  intro hs
  induction hs with
  | nil => intro st _; simp [reg_sequence]
  | cons g rest ih =>
    intro st hall
    have hg := hall g (List.mem_cons_self g rest)
    have hrest : ∀ x ∈ rest, x.isCoroFn = true := fun x hx => hall x (List.mem_cons_of_mem g hx)
    have hstep : reg_sequence st ev once (g :: rest) =
        reg_sequence (add_listener st g (some ev) false once).1 ev once rest := rfl
    rw [hstep, ih _ hrest, add_listener_append st g ev once hev hg]
    simp

/-- C7: for every event name and handler kind, repeated `add_listener`
registrations without overwrite append in call order and lookup returns
exactly that order; a registration with `overwrite=true` replaces the
sequence with a fresh singleton, so subsequent registrations start from it
and no handler registered before the overwrite appears in later lookups. -/
theorem c7_register_append_overwrite (st : ClientEvents) (ev : String) (once : Bool)
    (hs : List Handler) (h' : Handler)
    (hev : ¬ ev = "")
    (hall : ∀ g ∈ hs, g.isCoroFn = true)
    (hh : h'.isCoroFn = true) :
    listenersFor (reg_sequence st ev once hs) once ev = listenersFor st once ev ++ hs ∧
    listenersFor (reg_sequence (add_listener st h' (some ev) true once).1 ev once hs) once ev
      = h' :: hs ∧
    ∀ g ∈ listenersFor (reg_sequence (add_listener st h' (some ev) true once).1 ev once hs)
      once ev, g = h' ∨ g ∈ hs := by
  refine ⟨reg_sequence_lookup ev once hev hs st hall, ?_, ?_⟩
  · rw [reg_sequence_lookup ev once hev hs _ hall, add_listener_overwrite st h' ev once hev hh]
    simp
  · intro g hgm
    rw [reg_sequence_lookup ev once hev hs _ hall,
      add_listener_overwrite st h' ev once hev hh] at hgm
    simpa using hgm

/-- Data for the C7 witness. -/
def hW0 : Handler := ⟨20, "w0", true, false, 0⟩

def hW1 : Handler := ⟨21, "w1", true, false, 0⟩

def hW2 : Handler := ⟨22, "w2", true, false, 0⟩

def cevEmpty : ClientEvents := ⟨[], []⟩

theorem c7_register_append_overwrite_witness :
    (¬ "tick" = "") ∧
    listenersFor (reg_sequence cevEmpty "tick" false [hW1, hW2]) false "tick" = [hW1, hW2] ∧
    listenersFor (reg_sequence (add_listener cevEmpty hW0 (some "tick") true false).1 "tick"
      false [hW1, hW2]) false "tick" = hW0 :: [hW1, hW2] := by
  have hmain := c7_register_append_overwrite cevEmpty "tick" false [hW1, hW2] hW0
    (by decide) (by decide) rfl
  have h1 := hmain.1
  rw [show listenersFor cevEmpty false "tick" = [] from rfl] at h1
  exact ⟨by decide, by simpa using h1, hmain.2.1⟩

/-! Connection lifecycle: `Client.login`, `Client.connect`,
`Client.alive_loop`, `Client.close`. -/

/-- Errors raised on the connection path: an authentication failure from
`httphandler.login`, a gateway-resolution failure from
`httphandler.gateway`, a session-establishment failure or the 30-unit
`asyncio.wait_for` timeout from `socket.start`, a receive-loop failure, the
`TypeError` from the intents check, the `AttributeError` from reading the
never-assigned `self.ws`, and fuel exhaustion of the embedding. -/
inductive GErr
  | authFail
  | gwFail
  | startFail
  | timeoutFail
  | recvFail
  | typeFail
  | attrFail
  | outOfFuel
  deriving DecidableEq, Repr

/-- Observable I/O actions of the lifecycle: the login REST call, the
gateway-resolution REST call, awaiting `socket.start` under `wait_for` with
its timeout bound, one `receive_events` call, entering `close()`, closing
the websocket, closing the REST layer. -/
inductive CAct
  | loginCall
  | gatewayCall
  | socketStart (timeLimit : Nat)
  | receiveCall
  | closeCall
  | wsClose
  | httpClose
  deriving DecidableEq, Repr

/-- The mutable `Client` attributes the lifecycle reads and writes:
`self.closed`, whether `self.intents` is an `Intents` instance, the
`self.ws` attribute (absent until first assigned inside `connect`), and
`self.info` (absent until `login` stores it). -/
structure CState where
  closed : Bool
  intentsOK : Bool
  ws : Option Nat
  info : Option Nat
  deriving DecidableEq, Repr

/-- Results supplied by the external collaborators, indexed by how many
calls of each kind have already been made: `httphandler.login`,
`httphandler.gateway`, `asyncio.wait_for(socket.start(url), timeout=30)`
(an `ok s` is the established session), and `ws.receive_events` (an `ok b`
returns normally with `self.closed` possibly set to `true` by a handler
that ran during the receive). -/
structure ConnEnv where
  loginR : Except GErr Nat
  gatewayR : Nat → Except GErr String
  startR : Nat → Except GErr Nat
  receiveR : Nat → Except GErr Bool

/-- The inner `while not self.closed: await self.ws.receive_events()` loop
of `Client.connect`. Returns the final `closed` flag, the next receive
index, the trace, and the propagating error if a receive raised. -/
def recvLoop (env : ConnEnv) : Nat → Bool → Nat → Bool × Nat × List CAct × Option GErr
  | 0, closed, ri => (closed, ri, [], some GErr.outOfFuel)
  | n+1, closed, ri =>
    if closed then (closed, ri, [], none)
    else
      match env.receiveR ri with
      | .error e => (closed, ri + 1, [CAct.receiveCall], some e)
      | .ok b =>
        match recvLoop env n (closed || b) (ri + 1) with
        | (c', ri', tr, r) => (c', ri', CAct.receiveCall :: tr, r)

/-- The outer `while not self.closed` loop of `Client.connect`: construct a
`WebSocket` (no I/O), resolve the gateway URL under the lock, check
`isinstance(self.intents, Intents)` and raise `TypeError` if it fails,
await `socket.start(g_url)` bounded by the 30-unit timeout, assign
`self.ws`, then drain the session with the inner receive loop. No failure
is caught: any error propagates out of `connect`. -/
def connLoop (env : ConnEnv) : Nat → CState → Nat → Nat → CState × List CAct × Option GErr
  | 0, st, _, _ => (st, [], some GErr.outOfFuel)
  | n+1, st, gi, ri =>
    if st.closed then (st, [], none)
    else
      match env.gatewayR gi with
      | .error e => (st, [CAct.gatewayCall], some e)
      | .ok _url =>
        if ¬ st.intentsOK then (st, [CAct.gatewayCall], some GErr.typeFail)
        else
          match env.startR gi with
          | .error e => (st, [CAct.gatewayCall, CAct.socketStart 30], some e)
          | .ok s =>
            match recvLoop env (n+1) ({ st with ws := some s } : CState).closed ri with
            | (c', _ri', trR, some e) =>
              ({ st with ws := some s, closed := c' },
               CAct.gatewayCall :: CAct.socketStart 30 :: trR, some e)
            | (c', ri', trR, none) =>
              match connLoop env n { st with ws := some s, closed := c' } (gi+1) ri' with
              | (st2, tr2, r2) =>
                (st2, CAct.gatewayCall :: CAct.socketStart 30 :: (trR ++ tr2), r2)

/-- Embedding of `Client.connect()`. -/
def connect (env : ConnEnv) (fuel : Nat) (st : CState) : CState × List CAct × Option GErr :=
  connLoop env fuel st 0 0

/-- Embedding of `Client.close()`: set `self.closed`, then read `self.ws`
— an `AttributeError` if it was never assigned — close it and close the
REST layer. -/
def close (st : CState) : CState × List CAct × Option GErr :=
  let st1 := { st with closed := true }
  match st1.ws with
  | none => (st1, [], some GErr.attrFail)
  | some _ => (st1, [CAct.wsClose, CAct.httpClose], none)

/-- Embedding of `Client.login(token)`: the REST login under the lock,
storing the account info. -/
def login (env : ConnEnv) (st : CState) : CState × List CAct × Option GErr :=
  match env.loginR with
  | .error e => (st, [CAct.loginCall], some e)
  | .ok i => ({ st with info := some i }, [CAct.loginCall], none)

/-- Embedding of `Client.alive_loop(token)`: `login` runs before the `try`,
so a login failure propagates without cleanup; `connect` runs inside
`try ... finally: await self.close()`, so `close` always runs after
`connect` finishes or raises, and an error raised by `close` itself
supersedes the one from `connect`. -/
def alive_loop (env : ConnEnv) (fuel : Nat) (st : CState) : CState × List CAct × Option GErr :=
  match login env st with
  | (stL, trL, some e) => (stL, trL, some e)
  | (stL, trL, none) =>
    match connect env fuel stL with
    | (st1, tr1, r1) =>
      match close st1 with
      | (st2, tr2, r2) =>
        (st2, trL ++ tr1 ++ CAct.closeCall :: tr2,
         match r2 with
         | some e => some e
         | none => r1)

/-- C1 (amended): `connect` has no exception handling around gateway
resolution or session establishment, so with the client not closed either
failure propagates out of `connect` immediately, the state unchanged and
the outer loop never retrying. First part: the attempt's
`httphandler.gateway()` call raises — the error propagates with exactly
that one REST call in the trace and no start attempt. Second part: the
gateway call succeeds (and the intents check passes) but
`wait_for(socket.start(...), 30)` raises (failure or timeout) — the error
propagates with exactly one gateway call and one start attempt in the
trace; no new session is constructed. -/
theorem c1_amended_failure_propagates :
    (∀ (env : ConnEnv) (n : Nat) (st : CState) (gi ri : Nat) (e : GErr),
      st.closed = false → env.gatewayR gi = .error e →
      connLoop env (n+1) st gi ri = (st, [CAct.gatewayCall], some e)) ∧
    (∀ (env : ConnEnv) (n : Nat) (st : CState) (gi ri : Nat) (u : String) (e : GErr),
      st.closed = false → st.intentsOK = true →
      env.gatewayR gi = .ok u → env.startR gi = .error e →
      connLoop env (n+1) st gi ri = (st, [CAct.gatewayCall, CAct.socketStart 30], some e)) := by
  constructor
  · intro env n st gi ri e hc hg
    simp [connLoop, hc, hg]
  · intro env n st gi ri u e hc hi hg hs
    simp [connLoop, hc, hi, hg, hs]

/-- Environment for the C1 counterexample: login succeeds, the gateway
resolves, but session establishment always times out. -/
def envC1 : ConnEnv :=
  ⟨Except.ok 0, fun _ => Except.ok "wss://gateway", fun _ => Except.error GErr.timeoutFail,
   fun _ => Except.ok true⟩

/-- A freshly constructed, authenticated, not-closed client with valid
intents. -/
def stOpen : CState := ⟨false, true, none, none⟩

/-- C1 counterexample: with the client not closed, a session-establishment
timeout on the very first attempt terminates `connect` with that error —
the failure is surfaced, not recovered by the outer loop. -/
theorem c1_counterexample :
    stOpen.closed = false ∧
    envC1.startR 0 = Except.error GErr.timeoutFail ∧
    (connect envC1 5 stOpen).2.2 = some GErr.timeoutFail ∧
    (connect envC1 5 stOpen).1.closed = false := by
  refine ⟨rfl, rfl, by decide, by decide⟩

/-- Environment in which gateway resolution itself fails. -/
def envGwFail : ConnEnv :=
  ⟨Except.ok 0, fun _ => Except.error GErr.gwFail, fun _ => Except.ok 1,
   fun _ => Except.ok true⟩

theorem c1_amended_failure_propagates_witness :
    stOpen.closed = false ∧
    connLoop envGwFail 5 stOpen 0 0 = (stOpen, [CAct.gatewayCall], some GErr.gwFail) ∧
    connLoop envC1 5 stOpen 0 0 =
      (stOpen, [CAct.gatewayCall, CAct.socketStart 30], some GErr.timeoutFail) :=
  ⟨rfl,
   c1_amended_failure_propagates.1 envGwFail 4 stOpen 0 0 GErr.gwFail rfl rfl,
   c1_amended_failure_propagates.2 envC1 4 stOpen 0 0 "wss://gateway" GErr.timeoutFail
     rfl rfl rfl rfl⟩

/-- C2 (amended): when the configured intents are not an `Intents`
instance, `connect` raises the `TypeError` before opening any session (no
`socket.start` in the trace) — but only after the gateway-resolution REST
call of that attempt, which therefore does perform network I/O before the
capability-flag type check. -/
theorem c2_amended_type_check_after_gateway (env : ConnEnv) (n : Nat) (st : CState)
    (gi ri : Nat) (u : String)
    (hc : st.closed = false) (hi : st.intentsOK = false) (hg : env.gatewayR gi = .ok u) :
    connLoop env (n+1) st gi ri = (st, [CAct.gatewayCall], some GErr.typeFail) ∧
    CAct.socketStart 30 ∉ (connLoop env (n+1) st gi ri).2.1 ∧
    CAct.gatewayCall ∈ (connLoop env (n+1) st gi ri).2.1 := by
  have hcomp : connLoop env (n+1) st gi ri = (st, [CAct.gatewayCall], some GErr.typeFail) := by
    simp [connLoop, hc, hi, hg]
  refine ⟨hcomp, ?_, ?_⟩ <;> rw [hcomp] <;> simp

/-- Environment for the C2 counterexample: every external call succeeds. -/
def envC2 : ConnEnv :=
  ⟨Except.ok 0, fun _ => Except.ok "wss://gateway", fun _ => Except.ok 1,
   fun _ => Except.ok true⟩

/-- A not-closed client whose intents are not an `Intents` instance. -/
def stBadIntents : CState := ⟨false, false, none, none⟩

/-- C2 counterexample: with malformed intents, `connect` does fail with the
type error, but the trace of the failing run already contains the
gateway-resolution REST call — network I/O happened before the
capability-flag type check. -/
theorem c2_counterexample :
    stBadIntents.intentsOK = false ∧
    (connect envC2 3 stBadIntents).2.2 = some GErr.typeFail ∧
    CAct.gatewayCall ∈ (connect envC2 3 stBadIntents).2.1 := by
  refine ⟨rfl, by decide, by decide⟩

theorem c2_amended_type_check_after_gateway_witness :
    stBadIntents.closed = false ∧
    connLoop envC2 3 stBadIntents 0 0 = (stBadIntents, [CAct.gatewayCall], some GErr.typeFail) :=
  ⟨rfl, (c2_amended_type_check_after_gateway envC2 2 stBadIntents 0 0 "wss://gateway"
    rfl rfl rfl).1⟩

/-- C10 (amended): cleanup safety of `alive_loop` and `close`. A `login`
failure propagates out of `alive_loop` without invoking `close` at all
(`login` runs before the `try`); `close` on a client whose `ws` attribute
was never assigned raises `AttributeError` (after setting the closed
flag); and when `login` succeeds but `connect` fails before any session
was established, the `finally` block does invoke `close`, whose
`AttributeError` then supersedes the connection error. -/
theorem c10_amended_close_safety :
    (∀ (env : ConnEnv) (fuel : Nat) (st : CState) (e : GErr), env.loginR = .error e →
      alive_loop env fuel st = (st, [CAct.loginCall], some e) ∧
      CAct.closeCall ∉ (alive_loop env fuel st).2.1) ∧
    (∀ st : CState, st.ws = none →
      close st = ({ st with closed := true }, [], some GErr.attrFail)) ∧
    (∀ (env : ConnEnv) (fuel : Nat) (st : CState) (i : Nat) (st1 : CState) (tr1 : List CAct)
       (e1 : GErr),
      env.loginR = .ok i →
      connect env fuel { st with info := some i } = (st1, tr1, some e1) →
      st1.ws = none →
      (alive_loop env fuel st).2.2 = some GErr.attrFail ∧
      CAct.closeCall ∈ (alive_loop env fuel st).2.1) := by
  refine ⟨?_, ?_, ?_⟩
  · intro env fuel st e hlog
    have hcomp : alive_loop env fuel st = (st, [CAct.loginCall], some e) := by
      simp [alive_loop, login, hlog]
    exact ⟨hcomp, by rw [hcomp]; simp⟩
  · intro st hws
    simp [close, hws]
  · intro env fuel st i st1 tr1 e1 hlog hcon hws
    have hclose : close st1 = ({ st1 with closed := true }, [], some GErr.attrFail) := by
      simp [close, hws]
    have hcomp : alive_loop env fuel st =
        ({ st1 with closed := true },
         [CAct.loginCall] ++ tr1 ++ [CAct.closeCall], some GErr.attrFail) := by
      simp [alive_loop, login, hlog, hcon, hclose]
    rw [hcomp]
    exact ⟨rfl, by simp⟩

/-- Environment for the C10 counterexample: authentication fails. -/
def envAuth : ConnEnv :=
  ⟨Except.error GErr.authFail, fun _ => Except.ok "wss://gateway", fun _ => Except.ok 1,
   fun _ => Except.ok true⟩

/-- C10 counterexample: when `login` raises, `alive_loop` terminates with
the login error and `close()` is never invoked — the claimed cleanup path
does not run for login failures, because `login` is outside the `try`
block. -/
theorem c10_counterexample :
    (alive_loop envAuth 3 stOpen).2.2 = some GErr.authFail ∧
    CAct.closeCall ∉ (alive_loop envAuth 3 stOpen).2.1 := by
  refine ⟨by decide, by decide⟩

theorem c10_amended_close_safety_witness :
    envAuth.loginR = Except.error GErr.authFail ∧
    alive_loop envAuth 3 stOpen = (stOpen, [CAct.loginCall], some GErr.authFail) ∧
    (alive_loop envC1 3 stOpen).2.2 = some GErr.attrFail := by
  refine ⟨rfl, (c10_amended_close_safety.1 envAuth 3 stOpen GErr.authFail rfl).1, ?_⟩
  exact (c10_amended_close_safety.2.2 envC1 3 stOpen 0
    ({ stOpen with info := some 0 }) [CAct.gatewayCall, CAct.socketStart 30] GErr.timeoutFail
    rfl (by decide) rfl).1

/-! Command registry: `Client.add_command`, `Client.get_command_named`,
`Client.process_commands`. -/

/-- A registered command. `cid` is its identity; `name`,
`is_regex_command`, `regex_flags` and `regex_match_func` are the attributes
`Client` reads (the matcher is the command's own pattern-matching callable,
applied to the registration key, the looked-up name and the flags). -/
structure Command where
  cid : Nat
  name : String
  is_regex_command : Bool
  regex_flags : Nat
  regex_match_func : String → String → Nat → Bool

/-- Error raised by `add_command` on a duplicate name. -/
inductive CmdErr
  | duplicateName
  deriving DecidableEq, Repr

/-- Embedding of `Client.add_command(command)`: raise `ValueError` if the
name is already a key of `self.commands`, otherwise insert. -/
def add_command (cmds : List (String × Command)) (c : Command) :
    List (String × Command) × Option CmdErr :=
  if (dFind? cmds c.name).isSome then (cmds, some CmdErr.duplicateName)
  else (dSet cmds c.name c, none)

/-- Embedding of `Client.get_command_named(name)`: a single pass over
`self.commands.items()` in insertion order; a regex-style command is
returned if its match rule accepts the name under its flags, a plain
command if its key equals the name; `None` if the loop falls through. -/
def get_command_named (cmds : List (String × Command)) (nm : String) : Option Command :=
  match cmds with
  | [] => none
  | (command_name, command) :: rest =>
    if command.is_regex_command then
      if command.regex_match_func command_name nm command.regex_flags then some command
      else get_command_named rest nm
    else if command_name = nm then some command
    else get_command_named rest nm

/-- Whether one registry entry accepts a looked-up name, following the two
branches of the loop body of `get_command_named`. -/
def entryHits (nm : String) (kc : String × Command) : Bool :=
  if kc.2.is_regex_command then kc.2.regex_match_func kc.1 nm kc.2.regex_flags
  else decide (kc.1 = nm)

/-- C5 (amended): `get_command_named` is a first-hit scan of the registry
in registration order, with no separate exact-match pass: each entry is
tested by its own rule — pattern commands by their match function, plain
commands by key equality — and the first entry that accepts the name wins,
so a pattern command registered earlier shadows a later plain command with
the exact name; if no entry accepts, the result is `none` rather than an
exception. -/
theorem c5_amended_first_hit_scan :
    (∀ (pre : List (String × Command)) (e : String × Command) (post : List (String × Command))
       (nm : String),
      (∀ e' ∈ pre, entryHits nm e' = false) → entryHits nm e = true →
      get_command_named (pre ++ e :: post) nm = some e.2) ∧
    (∀ (cmds : List (String × Command)) (nm : String),
      (∀ e ∈ cmds, entryHits nm e = false) → get_command_named cmds nm = none) := by
  constructor
  · intro pre
    induction pre with
    | nil =>
      intro e post nm _ hhit
      obtain ⟨k, c⟩ := e
      rw [entryHits] at hhit
      by_cases hr : c.is_regex_command = true
      · rw [if_pos hr] at hhit
        have hhit' : c.regex_match_func k nm c.regex_flags = true := hhit
        simp [get_command_named, hr, hhit']
      · rw [if_neg hr] at hhit
        have hk : k = nm := of_decide_eq_true hhit
        simp [get_command_named, hr, hk]
    | cons e' rest ih =>
      intro e post nm hmiss hhit
      have hm' : entryHits nm e' = false := hmiss e' (List.mem_cons_self e' rest)
      have hrest : ∀ x ∈ rest, entryHits nm x = false :=
        fun x hx => hmiss x (List.mem_cons_of_mem e' hx)
      obtain ⟨k, c⟩ := e'
      rw [entryHits] at hm'
      by_cases hr : c.is_regex_command = true
      · rw [if_pos hr] at hm'
        have hm'' : c.regex_match_func k nm c.regex_flags = false := hm'
        rw [List.cons_append]
        simp [get_command_named, hr, hm'']
        exact ih e post nm hrest hhit
      · rw [if_neg hr] at hm'
        have hk : ¬ k = nm := of_decide_eq_false hm'
        rw [List.cons_append]
        simp [get_command_named, hr, hk]
        exact ih e post nm hrest hhit
  · intro cmds
    induction cmds with
    | nil => intro nm _; rfl
    | cons e' rest ih =>
      intro nm hmiss
      have hm' : entryHits nm e' = false := hmiss e' (List.mem_cons_self e' rest)
      have hrest : ∀ x ∈ rest, entryHits nm x = false :=
        fun x hx => hmiss x (List.mem_cons_of_mem e' hx)
      obtain ⟨k, c⟩ := e'
      rw [entryHits] at hm'
      by_cases hr : c.is_regex_command = true
      · rw [if_pos hr] at hm'
        have hm'' : c.regex_match_func k nm c.regex_flags = false := hm'
        simp [get_command_named, hr, hm'']
        exact ih nm hrest
      · rw [if_neg hr] at hm'
        have hk : ¬ k = nm := of_decide_eq_false hm'
        simp [get_command_named, hr, hk]
        exact ih nm hrest

/-- A pattern-style command registered before a plain command that carries
the exact name "echo". The pattern accepts everything. -/
def cRegexAll : Command := ⟨1, "e.", true, 0, fun _ _ _ => true⟩

def cPlainEcho : Command := ⟨2, "echo", false, 0, fun _ _ _ => false⟩

def cmdsC5 : List (String × Command) := [("e.", cRegexAll), ("echo", cPlainEcho)]

/-- C5 counterexample: "echo" is the exact key of the registered plain
command (cid 2), but resolution returns the earlier-registered pattern
command (cid 1) — there is no exact-match-first pass. -/
theorem c5_counterexample :
    (dFind? cmdsC5 "echo").map Command.cid = some 2 ∧
    (get_command_named cmdsC5 "echo").map Command.cid = some 1 := by
  constructor
  · rfl
  · rfl

theorem c5_amended_first_hit_scan_witness :
    entryHits "echo" ("e.", cRegexAll) = true ∧
    get_command_named cmdsC5 "echo" = some cRegexAll ∧
    get_command_named [] "echo" = none := by
  refine ⟨rfl, ?_, c5_amended_first_hit_scan.2 [] "echo" (by intro e he; simp at he)⟩
  exact c5_amended_first_hit_scan.1 [] ("e.", cRegexAll) [("echo", cPlainEcho)] "echo"
    (by intro e he; simp at he) rfl

/-- C9: registering a command whose plain name is already a key fails with
the duplicate-name error, and the registry is unchanged by the failing
call — it still maps the name to the first-registered command. -/
theorem c9_duplicate_command_rejected (cmds : List (String × Command)) (c c₀ : Command)
    (hdup : dFind? cmds c.name = some c₀) :
    add_command cmds c = (cmds, some CmdErr.duplicateName) ∧
    dFind? (add_command cmds c).1 c.name = some c₀ := by
  have hcomp : add_command cmds c = (cmds, some CmdErr.duplicateName) := by
    simp [add_command, hdup]
  exact ⟨hcomp, by rw [hcomp]; exact hdup⟩

def cHelp1 : Command := ⟨5, "help", false, 0, fun _ _ _ => false⟩

def cHelp2 : Command := ⟨6, "help", false, 0, fun _ _ _ => false⟩

def cmdsC9 : List (String × Command) := [("help", cHelp1)]

theorem c9_duplicate_command_rejected_witness :
    dFind? cmdsC9 cHelp2.name = some cHelp1 ∧
    add_command cmdsC9 cHelp2 = (cmdsC9, some CmdErr.duplicateName) :=
  ⟨rfl, (c9_duplicate_command_rejected cmdsC9 cHelp2 cHelp1 rfl).1⟩

/-! Command processing: `Client.process_commands`. -/

/-- The author of a message; `bot` is `message.author.bot`. -/
structure Author where
  bot : Bool
  deriving DecidableEq, Repr

/-- The slice of a `Message` that `process_commands` inspects. -/
structure MessageM where
  author : Author
  content : String
  deriving DecidableEq, Repr

/-- Observable actions of `process_commands`: the `parse_message` call on
the parser, and the execution of a resolved command with the parsed
positional, keyword and extra keyword arguments. -/
inductive PAct
  | parseCall (content : String)
  | executeCall (cid : Nat) (args : List String) (kwargs extra_kwargs : List (String × String))
  deriving Repr

/-- The external `CommandParser.parse_message` collaborator: returns the
4-tuple (command-or-none, positional args, keyword args, extra keyword
args). -/
abbrev ParseFn :=
  MessageM → Option Command × List String × List (String × String) × List (String × String)

/-- Embedding of `Client.process_commands(message)`: stop silently if the
author is a bot; otherwise parse the message, build a `Context`, and — if a
command was resolved — execute it with the context and parsed arguments. -/
def process_commands (parse_message : ParseFn) (msg : MessageM) : List PAct :=
  if msg.author.bot then []
  else
    match parse_message msg with
    | (some command, args, kwargs, extra_kwargs) =>
      [PAct.parseCall msg.content, PAct.executeCall command.cid args kwargs extra_kwargs]
    | (none, _, _, _) => [PAct.parseCall msg.content]

/-- C8: a message authored by a bot account never triggers command
processing — for every parser (hence regardless of whether the text
matches a registered command, with or without the prefix, and of any
configuration), `process_commands` performs no action at all: it neither
parses nor executes. -/
theorem c8_bot_messages_ignored (parse_message : ParseFn) (msg : MessageM)
    (hbot : msg.author.bot = true) :
    process_commands parse_message msg = [] := by
  simp [process_commands, hbot]

def cPing : Command := ⟨3, "ping", false, 0, fun _ _ _ => false⟩

/-- A parser that resolves every message to the `ping` command — the
strongest adversary for C8: the text does match a command. -/
def parseAlways : ParseFn := fun _ => (some cPing, [], [], [])

def botMsg : MessageM := ⟨⟨true⟩, "!ping"⟩

theorem c8_bot_messages_ignored_witness :
    botMsg.author.bot = true ∧
    process_commands parseAlways botMsg = [] :=
  ⟨rfl, c8_bot_messages_ignored parseAlways botMsg rfl⟩

end Disthon

